import Mathlib

/-!
Verification of the Poly template-language parser (`src/compiler/parser.rs`).

The parser consumes a flat list of lexemes and produces a list of
"node or error" results together with a registry of component definitions.
The embedding below translates the Rust source function by function.
The lexeme/AST/builder types live in the (absent) `tokens` module of the
repository, so they are modelled from the specification's data-model
section; everything else is translated directly from `parser.rs`.

Recursion through nested bodies (`Parser::new(children)` inside the
`get_children!` macro) is handled with an explicit fuel parameter so that
every definition is executable by kernel reduction; `Res.fuelOut` marks
fuel exhaustion (never produced by the Rust code, which always
terminates) and `Res.panicked` marks a Rust `unreachable!()` panic.
-/

namespace Poly

/-- Modelled from the spec: the fixed operator set of the external lexer
(`tokens.rs` is not part of the sources). -/
inductive Operator where
  | At | Dot | Ampersand | Dollar | ForwardSlash | BackSlash
  | OpenParam | CloseParam | OpenBrace | CloseBrace
  | Comma | Equals | Quote | Pound
  deriving DecidableEq, Repr

/-- Modelled from the spec: each operator's surface form, used when an
operator is rendered back as literal text (`operator.to_string()`). -/
def Operator.to_string : Operator → String
  | .At => "@"
  | .Dot => "."
  | .Ampersand => "&"
  | .Dollar => "$"
  | .ForwardSlash => "/"
  | .BackSlash => "\\"
  | .OpenParam => "("
  | .CloseParam => ")"
  | .OpenBrace => "\x7b"
  | .CloseBrace => "\x7d"
  | .Comma => ","
  | .Equals => "="
  | .Quote => "\""
  | .Pound => "#"

/-- Modelled from the spec: a positioned token produced by the external
lexer, either a text word or a structural symbol; the index is the source
position used for error reporting. -/
inductive Lexeme where
  | Word (index : Nat) (text : String)
  | Symbol (index : Nat) (op : Operator)
  deriving DecidableEq, Repr

/-- Modelled from the spec: the error taxonomy of `AstError`
(`tokens.rs` is not part of the sources); every variant carries the
offending lexeme or, for brace mismatches, a position index. -/
inductive AstError where
  | UnexpectedEof (l : Lexeme)
  | UnexpectedToken (l : Lexeme)
  | InvalidComponent (l : Lexeme)
  | ExpectedCompCall (l : Lexeme)
  | InvalidElement (l : Lexeme)
  | NoNameAttachedToClass (l : Lexeme)
  | NoNameAttachedToId (l : Lexeme)
  | InvalidTokenInAttributes (l : Lexeme)
  | ExpectedVariable (l : Lexeme)
  | InvalidFunctionCall (l : Lexeme)
  | UnclosedOpenBraces (i : Nat)
  | UnclosedCloseBraces (i : Nat)
  | Eof
  deriving DecidableEq, Repr

/-- Modelled from the spec: a component call node — a namespaced name and
positional argument values. -/
structure ComponentCall where
  name : String
  values : List String
  deriving DecidableEq, Repr

/-- Modelled from the spec: a function-call argument is either a bound
variable reference or a bound component reference. -/
inductive FnArg where
  | variable_ref (s : String)
  | component_ref (s : String)
  deriving DecidableEq, Repr

/-- Modelled from the spec: a function-call node — a namespaced name and
an ordered mapping from argument names to tagged values. -/
structure FunctionCall where
  name : String
  args : List (String × FnArg)
  deriving DecidableEq, Repr

mutual
/-- Modelled from the spec: the AST node type (`Token` in `tokens.rs`). -/
inductive Token where
  | Text (s : String)
  | Html (e : Element)
  | CompCall (c : ComponentCall)
  | Function (f : FunctionCall)
  | Variable (s : String)

/-- Modelled from the spec: an element node — tag, ordered attribute
mapping, class list, attached component calls, and children (each child
is a node-or-error result of the nested sub-parse). -/
inductive Element where
  | mk (tag : String) (attributes : List (String × String))
       (classes : List String) (resources : List ComponentCall)
       (children : List (Except AstError Token))
end

/-- Shortens the result type, as `AstResult` does in the source. -/
abbrev AstResult := Except AstError Token

/-- Modelled from the spec: a component definition — name, declared
parameter names, and body (node-or-error results of the sub-parse). -/
structure Component where
  name : String
  arg_values : List String
  children : List AstResult

def Element.tag : Element → String
  | .mk t _ _ _ _ => t

def Element.attributes : Element → List (String × String)
  | .mk _ a _ _ _ => a

def Element.classes : Element → List String
  | .mk _ _ c _ _ => c

def Element.resources : Element → List ComponentCall
  | .mk _ _ _ r _ => r

def Element.children : Element → List AstResult
  | .mk _ _ _ _ c => c

/-- Modelled from the spec: ordered string→string mapping update —
insertion order preserved, later writes for the same key overwrite. -/
def upsert : List (String × String) → String → String → List (String × String)
  | [], k, v => [(k, v)]
  | (k', v') :: r, k, v =>
      if k' = k then (k, v) :: r else (k', v') :: upsert r k v

def Element.new (tag : String) : Element := .mk tag [] [] [] []

def Element.add_attribute : Element → String → String → Element
  | .mk t a c r ch, k, v => .mk t (upsert a k v) c r ch

def Element.add_class : Element → String → Element
  | .mk t a c r ch, cls => .mk t a (c ++ [cls]) r ch

def Element.add_resource : Element → ComponentCall → Element
  | .mk t a c r ch, cc => .mk t a c (r ++ [cc]) ch

def Element.add_children : Element → List AstResult → Element
  | .mk t a c r ch, ts => .mk t a c r (ch ++ ts)

def Component.new (name : String) : Component := ⟨name, [], []⟩

def Component.add_arg_value (c : Component) (v : String) : Component :=
  { c with arg_values := c.arg_values ++ [v] }

def Component.add_children (c : Component) (ts : List AstResult) : Component :=
  { c with children := c.children ++ ts }

def ComponentCall.new (name : String) : ComponentCall := ⟨name, []⟩

def ComponentCall.add_value (c : ComponentCall) (v : String) : ComponentCall :=
  { c with values := c.values ++ [v] }

/-- Modelled from the spec: a `ComponentCall` node "built from the
collected name/arguments" of a component under construction. -/
def ComponentCall.from_component (c : Component) : ComponentCall :=
  ⟨c.name, c.arg_values⟩

def FunctionCall.new (name : String) : FunctionCall := ⟨name, []⟩

def FunctionCall.add_value_arg (f : FunctionCall) (n v : String) : FunctionCall :=
  { f with args := f.args ++ [(n, .variable_ref v)] }

def FunctionCall.add_component_arg (f : FunctionCall) (n v : String) : FunctionCall :=
  { f with args := f.args ++ [(n, .component_ref v)] }

/-- Rust's `str::trim` (standard library, outside the sources): removes
leading and trailing whitespace characters.  Defined on the character
list so that it is executable by kernel reduction. -/
def str_trim (s : String) : String :=
  ⟨((s.data.dropWhile Char.isWhitespace).reverse.dropWhile
      Char.isWhitespace).reverse⟩

/-- The component registry (`HashMap<String, Component>` in the source,
modelled as a key-unique association list). -/
abbrev Registry := List (String × Component)

/-- Modelled from the spec: map insertion — a later definition with the
same name overwrites the earlier one. -/
def Registry.insert : Registry → String → Component → Registry
  | [], k, c => [(k, c)]
  | (k', c') :: r, k, c =>
      if k' = k then (k, c) :: r else (k', c') :: Registry.insert r k c

def Registry.lookup : Registry → String → Option Component
  | [], _ => none
  | (k', c') :: r, k => if k' = k then some c' else Registry.lookup r k

/-!
Helper routines of the parser, translated from `parser.rs`.  Each helper
works on the list of remaining lexemes (the cursor) and returns the
remaining input alongside its result — also on the error path, since the
Rust iterator keeps the tokens consumed before an early `return Err`.
-/

/-- `get_identifer!` (parser.rs:20-30): expects the taken token to be a
word; on end of input the synthesized anchor is always `Symbol(index, At)`
regardless of the calling context. -/
def get_identifer (taken : Option Lexeme) (index : Nat)
    (unexpected : Lexeme → AstError) : Except AstError String :=
  match taken with
  | some (.Word _ text) => .ok text
  | some u => .error (unexpected u)
  | none => .error (.UnexpectedEof (.Symbol index .At))

/-- The dot loop of `get_namespaced_identifer!` (parser.rs:37-46):
`widx` is the index carried by the first word token — the Rust code
shadows the introducing symbol's index with it, so end of input after a
consumed dot is anchored at `Symbol(widx, Dot)`. -/
def get_ns_loop (input : List Lexeme) (widx : Nat) (acc : String)
    (unexpected : Lexeme → AstError) :
    Except (AstError × List Lexeme) (String × List Lexeme) :=
  match input with
  | (.Symbol _ .Dot) :: rest =>
      match rest with
      | (.Word _ member) :: rest' =>
          get_ns_loop rest' widx (acc ++ "." ++ member) unexpected
      | u :: rest' => .error (unexpected u, rest')
      | [] => .error (.UnexpectedEof (.Symbol widx .Dot), [])
  | _ => .ok (acc, input)

/-- `get_namespaced_identifer!` (parser.rs:32-53): reads a leading word
and then any number of `.word` continuations; `index`/`previous` locate
the symbol that introduced the identifier, used only when the input is
exhausted before the first word. -/
def get_namespaced_identifer (input : List Lexeme) (index : Nat)
    (unexpected : Lexeme → AstError) (previous : Operator) :
    Except (AstError × List Lexeme) (String × List Lexeme) :=
  match input with
  | (.Word widx text) :: rest => get_ns_loop rest widx text unexpected
  | u :: rest => .error (unexpected u, rest)
  | [] => .error (.UnexpectedEof (.Symbol index previous), [])

/-- The scanning loop of `get_children!` (parser.rs:55-94), with the
depth counter, the last-open-brace index `obi` and last-retained-close
index `cbi`, and the retained run accumulated in reverse.  On success it
returns the retained run and the input remaining after the body's own
closing brace; an error is only possible when the input is exhausted. -/
def get_children_loop (input : List Lexeme) (depth : Nat) (obi cbi : Nat)
    (acc : List Lexeme) : Except AstError (List Lexeme × List Lexeme) :=
  match input with
  | [] =>
      if depth > 0 then .error (.UnclosedOpenBraces obi)
      else if depth ≠ 0 then .error (.UnclosedCloseBraces cbi)
      else .ok (acc.reverse, [])
  | (.Symbol index .OpenBrace) :: rest =>
      get_children_loop rest (depth + 1) index cbi
        (if depth + 1 ≠ 0 then .Symbol index .OpenBrace :: acc else acc)
  | (.Symbol index .CloseBrace) :: rest =>
      if depth = 0 then .ok (acc.reverse, rest)
      else get_children_loop rest (depth - 1) obi index
        (.Symbol index .CloseBrace :: acc)
  | t :: rest => get_children_loop rest depth obi cbi (t :: acc)

/-- `get_children!` entry: the scan starts at depth 0 just after the
body's opening brace (already consumed by the caller). -/
def get_children_toks (input : List Lexeme) :
    Except AstError (List Lexeme × List Lexeme) :=
  get_children_loop input 0 0 0 []

/-- `Parser::read_leading_quotes` (parser.rs:428-438): concatenates word
text and operator surface forms until the first quote symbol. -/
def read_leading_quotes : List Lexeme → String × List Lexeme
  | [] => ("", [])
  | (.Symbol _ .Quote) :: rest => ("", rest)
  | (.Word _ t) :: rest =>
      let p := read_leading_quotes rest
      (t ++ p.1, p.2)
  | (.Symbol _ op) :: rest =>
      let p := read_leading_quotes rest
      (op.to_string ++ p.1, p.2)

/-- `Parser::parse_text` (parser.rs:395-407): greedily concatenates the
text of adjacent word tokens. -/
def parse_text (word : String) : List Lexeme → String × List Lexeme
  | (.Word _ t) :: rest => parse_text (word ++ t) rest
  | input => (word, input)

/-- `Parser::parse_escaped` (parser.rs:321-330): a following symbol is
consumed and rendered literally; a following word is left in the stream
and empty text is produced; end of input yields the `Eof` sentinel. -/
def parse_escaped : List Lexeme → AstResult × List Lexeme
  | (.Symbol _ op) :: rest => (.ok (.Text op.to_string), rest)
  | [] => (.error .Eof, [])
  | input => (.ok (.Text ""), input)

/-- The component-call argument loop inside `Parser::parse_element`
(parser.rs:236-248): `.inl` continues the element loop with the call
collected so far (close-paren consumed, or input exhausted), `.inr` is an
early return of `parse_element`. -/
def element_call_args (cc : ComponentCall) :
    List Lexeme → (ComponentCall × List Lexeme) ⊕ (AstError × List Lexeme)
  | [] => .inl (cc, [])
  | (.Symbol _ .CloseParam) :: rest => .inl (cc, rest)
  | (.Symbol idx .At) :: rest =>
      match rest with
      | (.Word _ v) :: rest' => element_call_args (cc.add_value v) rest'
      | u :: rest' => .inr (.ExpectedVariable u, rest')
      | [] => .inr (.UnexpectedEof (.Symbol idx .At), [])
  | (.Symbol _ .Comma) :: rest => element_call_args cc rest
  | u :: rest => .inr (.UnexpectedToken u, rest)

/-- The argument-list loop of `Parser::parse_component`
(parser.rs:177-197): `.inl` hands control back to the outer component
loop (a close-paren followed by an open brace, or exhausted input);
`.inr` is an early return — a close-paren followed by anything else
yields the `ComponentCall` node without touching any registry. -/
def component_args (c : Component) :
    List Lexeme → (Component × List Lexeme) ⊕ (AstResult × List Lexeme)
  | [] => .inl (c, [])
  | (.Symbol _ .CloseParam) :: rest =>
      match rest with
      | (.Symbol _ .OpenBrace) :: _ => .inl (c, rest)
      | _ => .inr (.ok (.CompCall (ComponentCall.from_component c)), rest)
  | (.Symbol idx .At) :: rest =>
      match rest with
      | (.Word _ v) :: rest' => component_args (c.add_arg_value v) rest'
      | u :: rest' => .inr (.error (.UnexpectedToken u), rest')
      | [] => .inr (.error (.UnexpectedEof (.Symbol idx .At)), [])
  | (.Symbol _ .Comma) :: rest => component_args c rest
  | u :: rest => .inr (.error (.UnexpectedToken u), rest)

/-- The argument loop of `Parser::parse_function` (parser.rs:338-385):
each entry is `name = @identifier` or `name = &identifier`; `.inl` exits
the loop normally (close-paren or exhausted input). -/
def function_args (fc : FunctionCall) :
    List Lexeme → (FunctionCall × List Lexeme) ⊕ (AstError × List Lexeme)
  | [] => .inl (fc, [])
  | (.Symbol _ .CloseParam) :: rest => .inl (fc, rest)
  | (.Symbol _ .Comma) :: rest => function_args fc rest
  | (.Word wIdx arg_name) :: rest =>
      match rest with
      | (.Symbol eIdx .Equals) :: rest₂ =>
          match rest₂ with
          | (.Symbol atIdx .At) :: rest₃ =>
              match rest₃ with
              | (.Word _ ident) :: rest₄ =>
                  function_args (fc.add_value_arg arg_name ident) rest₄
              | u :: rest₄ => .inr (.ExpectedVariable u, rest₄)
              | [] => .inr (.UnexpectedEof (.Symbol atIdx .At), [])
          | (.Symbol ampIdx .Ampersand) :: rest₃ =>
              match rest₃ with
              | (.Word _ ident) :: rest₄ =>
                  function_args (fc.add_component_arg arg_name ident) rest₄
              | u :: rest₄ => .inr (.ExpectedCompCall u, rest₄)
              | [] => .inr (.UnexpectedEof (.Symbol ampIdx .Ampersand), [])
          | u :: rest₃ => .inr (.UnexpectedToken u, rest₃)
          | [] => .inr (.UnexpectedEof (.Symbol eIdx .Equals), [])
      | u :: rest₂ => .inr (.InvalidFunctionCall u, rest₂)
      | [] => .inr (.UnexpectedEof (.Word wIdx arg_name), [])
  | u :: rest => .inr (.UnexpectedToken u, rest)

/-- `Parser::parse_function` (parser.rs:332-391): a namespaced name
followed by a mandatory parenthesized argument list. -/
def parse_function (index : Nat) (input : List Lexeme) :
    AstResult × List Lexeme :=
  match get_namespaced_identifer input index .InvalidFunctionCall .Dollar with
  | .error (e, rest) => (.error e, rest)
  | .ok (name, rest) =>
      match rest with
      | (.Symbol _ .OpenParam) :: rest₂ =>
          match function_args (FunctionCall.new name) rest₂ with
          | .inl (fc, rest₃) => (.ok (.Function fc), rest₃)
          | .inr (e, rest₃) => (.error e, rest₃)
      | u :: rest₂ => (.error (.InvalidFunctionCall u), rest₂)
      | [] => (.error (.UnexpectedEof (.Symbol index .Dollar)), [])

/-- Outcome of a fueled computation: a value, a Rust `unreachable!()`
panic, or fuel exhaustion (an artifact of the embedding — the Rust
functions always terminate, so every run is an `ok` or a `panicked` at
sufficient fuel). -/
inductive Res (α : Type) where
  | ok (a : α)
  | panicked
  | fuelOut

/-- The driver's halting test: the result pattern `Err(Eof)`
(parser.rs:110). -/
def is_eof : AstResult → Bool
  | .error .Eof => true
  | _ => false

/-- A nested sub-parse: what `Parser::new(children).output()` provides to
the children extractor — the full output of a fresh parser together with
that parser's (discarded) component registry. -/
abbrev SubParse := List Lexeme → Res (List AstResult × Registry)

/-- The attribute-list loop inside `Parser::parse_element`
(parser.rs:253-293): `opIdx` is the index of the opening parenthesis
(the Rust code's `index` binding, reused by the end-of-input error after
a bare key).  `.inl` continues the element loop (a close-paren followed
by an open brace, or exhausted input); `.inr` is an early return. -/
def attr_loopF (fuel : Nat) (opIdx : Nat) (el : Element)
    (input : List Lexeme) :
    Res ((Element × List Lexeme) ⊕ (AstResult × List Lexeme)) :=
  match fuel with
  | 0 => .fuelOut
  | f + 1 =>
    match input with
    | [] => .ok (.inl (el, []))
    | (.Symbol _ .CloseParam) :: rest =>
        match rest with
        | (.Symbol _ .OpenBrace) :: _ => .ok (.inl (el, rest))
        | _ => .ok (.inr (.ok (.Html el), rest))
    | (.Symbol _ .Quote) :: rest =>
        let p := read_leading_quotes rest
        attr_loopF f opIdx
          (el.add_attribute ("\"" ++ p.1 ++ "\"") "") p.2
    | (.Word _ key) :: rest =>
        match rest with
        | (.Symbol eqIdx .Equals) :: rest₂ =>
            match rest₂ with
            | (.Word _ text) :: rest₃ =>
                attr_loopF f opIdx (el.add_attribute key text) rest₃
            | (.Symbol _ .Quote) :: rest₃ =>
                let p := read_leading_quotes rest₃
                attr_loopF f opIdx (el.add_attribute key p.1) p.2
            | u :: rest₃ =>
                .ok (.inr (.error (.InvalidTokenInAttributes u), rest₃))
            | [] =>
                .ok (.inr (.error (.UnexpectedEof (.Symbol eqIdx .Equals)), []))
        | (.Word _ _) :: _ =>
            attr_loopF f opIdx (el.add_attribute key "") rest
        | (.Symbol _ .CloseParam) :: _ =>
            attr_loopF f opIdx (el.add_attribute key "") rest
        | (.Symbol _ .Quote) :: _ =>
            attr_loopF f opIdx (el.add_attribute key "") rest
        | u :: _ =>
            .ok (.inr (.error (.InvalidTokenInAttributes u), rest))
        | [] =>
            .ok (.inr (.error (.UnexpectedEof (.Word opIdx key)), []))
    | u :: rest => .ok (.inr (.error (.InvalidTokenInAttributes u), rest))

/-- The main loop of `Parser::parse_element` (parser.rs:225-317),
parameterized by the nested sub-parse used for a `{...}` body.  The
sub-parser's component registry is discarded: only its output becomes
the element's children. -/
def element_loopG (subParse : SubParse) (fuel : Nat) (el : Element)
    (input : List Lexeme) : Res (AstResult × List Lexeme) :=
  match fuel with
  | 0 => .fuelOut
  | f + 1 =>
    match input with
    | [] => .ok (.ok (.Html el), [])
    | (.Symbol aIdx .Ampersand) :: rest =>
        match get_namespaced_identifer rest aIdx .ExpectedCompCall .Ampersand with
        | .error (e, rest') => .ok (.error e, rest')
        | .ok (name, rest') =>
            match rest' with
            | (.Symbol _ .OpenParam) :: rest₂ =>
                match element_call_args (ComponentCall.new name) rest₂ with
                | .inr (e, rest₃) => .ok (.error e, rest₃)
                | .inl (cc, rest₃) =>
                    element_loopG subParse f (el.add_resource cc) rest₃
            | _ =>
                element_loopG subParse f
                  (el.add_resource (ComponentCall.new name)) rest'
    | (.Symbol pIdx .OpenParam) :: rest =>
        match attr_loopF f pIdx el rest with
        | .ok (.inl (el', rest')) => element_loopG subParse f el' rest'
        | .ok (.inr (r, rest')) => .ok (r, rest')
        | .panicked => .panicked
        | .fuelOut => .fuelOut
    | (.Symbol dIdx .Dot) :: rest =>
        match rest with
        | (.Word _ cls) :: rest' => element_loopG subParse f (el.add_class cls) rest'
        | u :: rest' => .ok (.error (.NoNameAttachedToClass u), rest')
        | [] => .ok (.error (.UnexpectedEof (.Symbol dIdx .Dot)), [])
    | (.Symbol pIdx .Pound) :: rest =>
        match rest with
        | (.Word _ idv) :: rest' =>
            element_loopG subParse f (el.add_attribute "id" idv) rest'
        | u :: rest' => .ok (.error (.NoNameAttachedToId u), rest')
        | [] => .ok (.error (.UnexpectedEof (.Symbol pIdx .Pound)), [])
    | (.Symbol _ .OpenBrace) :: rest =>
        match get_children_toks rest with
        | .error e => .ok (.error e, [])
        | .ok (children, rest') =>
            if children.isEmpty then .ok (.ok (.Html el), rest')
            else
              match subParse children with
              | .ok (out, _) => .ok (.ok (.Html (el.add_children out)), rest')
              | .panicked => .panicked
              | .fuelOut => .fuelOut
    | u :: rest => .ok (.error (.UnexpectedToken u), rest)

/-- `Parser::parse_element` (parser.rs:221-319): reads the trimmed tag
name (note the `get_identifer!` end-of-input anchor is always an `At`
symbol) and runs the element loop. -/
def parse_elementG (subParse : SubParse) (fuel : Nat) (index : Nat)
    (input : List Lexeme) : Res (AstResult × List Lexeme) :=
  match input with
  | (.Word _ tag) :: rest =>
      element_loopG subParse fuel (Element.new (str_trim tag)) rest
  | u :: rest => .ok (.error (.InvalidElement u), rest)
  | [] => .ok (.error (.UnexpectedEof (.Symbol index .At)), [])

/-- The main loop of `Parser::parse_component` (parser.rs:173-218): the
outer loop peeks, so an unexpected token is left in the stream.  When
the loop exits without an early return — exhausted input, or a braced
body in definition mode — `allow` decides between registering the
component (emitting an empty `Text` placeholder) and the
`unreachable!()` panic of parser.rs:217. -/
def component_loopG (subParse : SubParse) (fuel : Nat) (allow : Bool)
    (c : Component) (input : List Lexeme) (comps : Registry) :
    Res (AstResult × List Lexeme × Registry) :=
  match fuel with
  | 0 => .fuelOut
  | f + 1 =>
    match input with
    | [] =>
        if allow then .ok (.ok (.Text ""), [], Registry.insert comps c.name c)
        else .panicked
    | (.Symbol _ .OpenParam) :: rest =>
        match component_args c rest with
        | .inr (r, rest') => .ok (r, rest', comps)
        | .inl (c', rest') => component_loopG subParse f allow c' rest' comps
    | (.Symbol bIdx .OpenBrace) :: rest =>
        if allow then
          match get_children_toks rest with
          | .error e => .ok (.error e, [], comps)
          | .ok (children, rest') =>
              if children.isEmpty then
                .ok (.ok (.Text ""), rest', Registry.insert comps c.name c)
              else
                match subParse children with
                | .ok (out, _) =>
                    let c' := c.add_children out
                    .ok (.ok (.Text ""), rest', Registry.insert comps c'.name c')
                | .panicked => .panicked
                | .fuelOut => .fuelOut
        else .ok (.error (.ExpectedCompCall (.Symbol bIdx .OpenBrace)), rest, comps)
    | u :: rest => .ok (.error (.UnexpectedToken u), u :: rest, comps)

/-- `Parser::parse_component` (parser.rs:169-219): reads the namespaced
component name and runs the component loop. -/
def parse_componentG (subParse : SubParse) (fuel : Nat) (allow : Bool)
    (index : Nat) (input : List Lexeme) (comps : Registry) :
    Res (AstResult × List Lexeme × Registry) :=
  match get_namespaced_identifer input index .InvalidComponent .Ampersand with
  | .error (e, rest) => .ok (.error e, rest, comps)
  | .ok (name, rest) =>
      component_loopG subParse fuel allow (Component.new name) rest comps

/-- `Parser::parse_token` (parser.rs:410-425): dispatch on the leading
token.  Only the component parser can change the registry. -/
def parse_tokenG (subParse : SubParse) (fuel : Nat) (input : List Lexeme)
    (comps : Registry) : Res (AstResult × List Lexeme × Registry) :=
  match input with
  | (.Word _ word) :: rest =>
      let p := parse_text word rest
      .ok (.ok (.Text p.1), p.2, comps)
  | (.Symbol index .At) :: rest =>
      match get_namespaced_identifer rest index .ExpectedVariable .At with
      | .ok (name, rest') => .ok (.ok (.Variable name), rest', comps)
      | .error (e, rest') => .ok (.error e, rest', comps)
  | (.Symbol index .ForwardSlash) :: rest =>
      match parse_elementG subParse fuel index rest with
      | .ok (r, rest') => .ok (r, rest', comps)
      | .panicked => .panicked
      | .fuelOut => .fuelOut
  | (.Symbol _ .BackSlash) :: rest =>
      let p := parse_escaped rest
      .ok (p.1, p.2, comps)
  | (.Symbol index .Ampersand) :: rest =>
      parse_componentG subParse fuel true index rest comps
  | (.Symbol index .Dollar) :: rest =>
      let p := parse_function index rest
      .ok (p.1, p.2, comps)
  | (.Symbol _ op) :: rest => .ok (.ok (.Text op.to_string), rest, comps)
  | [] => .ok (.error .Eof, [], comps)

/-- The driver loop of `Parser::new` (parser.rs:106-115): repeatedly
dispatches `parse_token`, stopping (without recording anything) on the
`Err(Eof)` sentinel.  A nested body is parsed by a fresh parser with an
empty component registry (`Parser::new(children)` in `get_children!`),
one fuel layer down. -/
def parseAllF : Nat → List Lexeme → Registry → Res (List AstResult × Registry)
  | 0, _, _ => .fuelOut
  | f + 1, input, comps =>
    match parse_tokenG (fun l => parseAllF f l []) f input comps with
    | .ok (r, rest, comps') =>
        if is_eof r then .ok ([], comps')
        else
          match parseAllF f rest comps' with
          | .ok (out, comps'') => .ok (r :: out, comps'')
          | .panicked => .panicked
          | .fuelOut => .fuelOut
    | .panicked => .panicked
    | .fuelOut => .fuelOut

/-!
Predicates and measuring functions used to state the claims.
-/

/-- Does the remaining input start with an open brace (the `peek` test at
parser.rs:187-192)? -/
def isOpenBraceHead : List Lexeme → Bool
  | (.Symbol _ .OpenBrace) :: _ => true
  | _ => false

/-- A well-formed component argument-list token run: any mix of
`@word` items and comma separators. -/
def isArgItems : List Lexeme → Bool
  | [] => true
  | (.Symbol _ .At) :: (.Word _ _) :: r => isArgItems r
  | (.Symbol _ .Comma) :: r => isArgItems r
  | _ => false

/-- The positional argument values named by an argument-list token run. -/
def arg_words : List Lexeme → List String
  | (.Symbol _ .At) :: (.Word _ v) :: r => v :: arg_words r
  | (.Symbol _ .Comma) :: r => arg_words r
  | _ => []

/-- Reference depth accounting for the children extractor: `true` iff the
scan runs off the end of the input with positive depth (an open brace
increments, a close brace at depth 0 would stop the scan, a close brace
at positive depth decrements). -/
def scanEndsOpen : List Lexeme → Nat → Bool
  | [], d => decide (0 < d)
  | (.Symbol _ .OpenBrace) :: r, d => scanEndsOpen r (d + 1)
  | (.Symbol _ .CloseBrace) :: r, d =>
      if d = 0 then false else scanEndsOpen r (d - 1)
  | _ :: r, d => scanEndsOpen r d

/-- The index of the last open-brace token of the run (`acc` when there
is none): the value held by the code's `open_brace_index` variable after
scanning the whole run. -/
def last_open_brace_index (acc : Nat) : List Lexeme → Nat
  | [] => acc
  | (.Symbol i .OpenBrace) :: r => last_open_brace_index i r
  | _ :: r => last_open_brace_index acc r

/-- Follows the claim's words (claim C3): the stack of positions of the
*unmatched* opening braces after scanning a run, innermost first — a
close brace matches the most recent unmatched opener. -/
def spec_unmatched_opens (stack : List Nat) : List Lexeme → List Nat
  | [] => stack
  | (.Symbol i .OpenBrace) :: r => spec_unmatched_opens (i :: stack) r
  | (.Symbol _ .CloseBrace) :: r => spec_unmatched_opens stack.tail r
  | _ :: r => spec_unmatched_opens stack r

/-- A (possibly empty) chain of `.word` continuations, as consumed by the
dot loop of `get_namespaced_identifer!`. -/
def is_dot_chain : List Lexeme → Bool
  | [] => true
  | (.Symbol _ .Dot) :: (.Word _ _) :: r => is_dot_chain r
  | _ => false

/-- The token sequence for `/div(.card #main){Hello @user}` (claim C5):
the class and id markers stand inside the parenthesized attribute
list. -/
def c5_paren_toks : List Lexeme :=
  [.Symbol 0 .ForwardSlash, .Word 1 "div", .Symbol 4 .OpenParam,
   .Symbol 5 .Dot, .Word 6 "card", .Symbol 11 .Pound, .Word 12 "main",
   .Symbol 16 .CloseParam, .Symbol 17 .OpenBrace, .Word 18 "Hello ",
   .Symbol 24 .At, .Word 25 "user", .Symbol 29 .CloseBrace]

/-- What the parser actually produces on `c5_paren_toks`: the attribute
loop rejects the dot, and the driver then resumes on the leftover tokens
one dispatch at a time. -/
def c5_paren_output : List AstResult :=
  [.error (.InvalidTokenInAttributes (.Symbol 5 .Dot)),
   .ok (.Text "card"), .ok (.Text "#"), .ok (.Text "main"),
   .ok (.Text ")"), .ok (.Text "\x7b"), .ok (.Text "Hello "),
   .ok (.Variable "user"), .ok (.Text "\x7d")]

/-- The token sequence for `/div.card#main{Hello @user}`: the class and
id markers in element position, where the grammar accepts them. -/
def c5_outside_toks : List Lexeme :=
  [.Symbol 0 .ForwardSlash, .Word 1 "div", .Symbol 4 .Dot, .Word 5 "card",
   .Symbol 10 .Pound, .Word 11 "main", .Symbol 16 .OpenBrace,
   .Word 17 "Hello ", .Symbol 23 .At, .Word 24 "user", .Symbol 28 .CloseBrace]

/-- The element node claimed by the C5 scenario: tag `div`, classes
`["card"]`, attribute `id="main"`, children
`[Text("Hello "), Variable("user")]`. -/
def c5_element : Element :=
  .mk "div" [("id", "main")] ["card"] []
    [.ok (.Text "Hello "), .ok (.Variable "user")]

/-!
Helper lemmas.
-/

/-- Running the component argument-list loop over a well-formed argument
run, a close-paren, and a continuation that does not start with an open
brace: the loop returns early with the `ComponentCall` built from the
collected name and argument values, leaving the continuation in the
stream. -/
theorem component_args_call_path (args : List Lexeme) (c : Component) (q : Nat)
    (rest : List Lexeme) (hargs : isArgItems args = true)
    (hrest : isOpenBraceHead rest = false) :
    component_args c (args ++ .Symbol q .CloseParam :: rest)
      = .inr (.ok (.CompCall ⟨c.name, c.arg_values ++ arg_words args⟩), rest) := by
  induction args using isArgItems.induct generalizing c with
  | case1 =>
      simp only [List.nil_append, component_args, arg_words, List.append_nil]
      match rest, hrest with
      | [], _ => rfl
      | (.Word _ _) :: _, _ => rfl
      | (.Symbol _ op) :: r, h =>
          cases op <;> simp_all [isOpenBraceHead, component_args,
            ComponentCall.from_component]
  | case2 i j v r ih =>
      simp only [isArgItems] at hargs
      simp only [List.cons_append, component_args, List.append_eq]
      rw [ih _ hargs]
      simp [Component.add_arg_value, arg_words, List.append_assoc]
  | case3 i r ih =>
      simp only [isArgItems] at hargs
      simp only [List.cons_append, component_args, List.append_eq]
      rw [ih _ hargs]
      simp [arg_words]
  | case4 t h0 h1 h2 =>
      exfalso
      rcases t with _ | ⟨l, r⟩
      · exact h0 rfl
      rcases l with ⟨i, s⟩ | ⟨i, op⟩
      · simp [isArgItems] at hargs
      cases op
      case At =>
        rcases r with _ | ⟨l', r'⟩
        · simp [isArgItems] at hargs
        rcases l' with ⟨j, v⟩ | ⟨j, op'⟩
        · exact h1 i j v r' rfl
        · simp [isArgItems] at hargs
      case Comma => exact h2 i r rfl
      all_goals simp [isArgItems] at hargs


theorem component_loop_registry (fuel : Nat) (subParse : SubParse) (allow : Bool)
    (c : Component) (input : List Lexeme) (comps : Registry) (r : AstResult)
    (rest : List Lexeme) (comps' : Registry)
    (h : component_loopG subParse fuel allow c input comps = .ok (r, rest, comps')) :
    comps' = comps ∨ ∃ c₂ : Component, comps' = Registry.insert comps c₂.name c₂ := by
  induction fuel generalizing c input comps r rest comps' with
  | zero => exact Res.noConfusion h
  | succ f ih =>
      rcases input with _ | ⟨l, rest₀⟩
      · simp only [component_loopG] at h
        split at h
        · simp only [Res.ok.injEq, Prod.mk.injEq] at h
          exact Or.inr ⟨c, h.2.2.symm⟩
        · exact Res.noConfusion h
      · rcases l with ⟨li, ls⟩ | ⟨li, op⟩
        · simp only [component_loopG] at h
          simp only [Res.ok.injEq, Prod.mk.injEq] at h
          exact Or.inl h.2.2.symm
        · cases op
          case OpenParam =>
            simp only [component_loopG] at h
            rcases hca : component_args c rest₀ with ⟨c', rest'⟩ | ⟨r', rest'⟩
            · rw [hca] at h
              exact ih _ _ _ _ _ _ h
            · rw [hca] at h
              simp only [Res.ok.injEq, Prod.mk.injEq] at h
              exact Or.inl h.2.2.symm
          case OpenBrace =>
            simp only [component_loopG] at h
            split at h
            · split at h
              · simp only [Res.ok.injEq, Prod.mk.injEq] at h
                exact Or.inl h.2.2.symm
              · split at h
                · simp only [Res.ok.injEq, Prod.mk.injEq] at h
                  exact Or.inr ⟨c, h.2.2.symm⟩
                · split at h
                  · simp only [Res.ok.injEq, Prod.mk.injEq] at h
                    exact Or.inr ⟨_, h.2.2.symm⟩
                  · exact Res.noConfusion h
                  · exact Res.noConfusion h
            · simp only [Res.ok.injEq, Prod.mk.injEq] at h
              exact Or.inl h.2.2.symm
          all_goals
            simp only [component_loopG] at h
            simp only [Res.ok.injEq, Prod.mk.injEq] at h
            exact Or.inl h.2.2.symm


theorem get_children_loop_ends_open (input : List Lexeme) (d obi cbi : Nat)
    (acc : List Lexeme) (h : scanEndsOpen input d = true) :
    get_children_loop input d obi cbi acc
      = .error (.UnclosedOpenBraces (last_open_brace_index obi input)) := by
  induction input generalizing d obi cbi acc with
  | nil =>
      simp only [scanEndsOpen, decide_eq_true_eq] at h
      simp [get_children_loop, last_open_brace_index, h]
  | cons t r ih =>
      rcases t with ⟨i, s⟩ | ⟨i, op⟩
      · simp only [scanEndsOpen] at h
        simp only [get_children_loop, last_open_brace_index]
        exact ih _ _ _ _ h
      · cases op
        case OpenBrace =>
          simp only [scanEndsOpen] at h
          simp only [get_children_loop, last_open_brace_index]
          exact ih _ _ _ _ h
        case CloseBrace =>
          simp only [scanEndsOpen] at h
          rcases Nat.eq_zero_or_pos d with hd | hd
          · simp [hd] at h
          · have hdz : ¬ d = 0 := Nat.pos_iff_ne_zero.mp hd
            simp only [if_neg hdz] at h
            simp only [get_children_loop, if_neg hdz, last_open_brace_index]
            exact ih _ _ _ _ h
        all_goals
          simp only [scanEndsOpen] at h
          simp only [get_children_loop, last_open_brace_index]
          exact ih _ _ _ _ h

theorem ns_loop_trailing_dot (chain : List Lexeme) (widx d : Nat) (acc : String)
    (unex : Lexeme → AstError) (h : is_dot_chain chain = true) :
    get_ns_loop (chain ++ [.Symbol d .Dot]) widx acc unex
      = .error (.UnexpectedEof (.Symbol widx .Dot), []) := by
  induction chain using is_dot_chain.induct generalizing acc with
  | case1 => rfl
  | case2 i j w r ih =>
      simp only [is_dot_chain] at h
      simp only [List.cons_append, get_ns_loop, List.append_eq]
      exact ih _ h
  | case3 t h0 h1 =>
      exfalso
      rcases t with _ | ⟨l, r⟩
      · exact h0 rfl
      rcases l with ⟨i, s⟩ | ⟨i, op⟩
      · simp [is_dot_chain] at h
      cases op
      case Dot =>
        rcases r with _ | ⟨l', r'⟩
        · simp [is_dot_chain] at h
        rcases l' with ⟨j, v⟩ | ⟨j, op'⟩
        · exact h1 i j v r' rfl
        · simp [is_dot_chain] at h
      all_goals simp [is_dot_chain] at h

/-- A result that fails the driver's `Err(Eof)` test is not the
sentinel. -/
theorem is_eof_eq_false (r : AstResult) (h : is_eof r = false) :
    r ≠ .error .Eof := by
  intro he
  subst he
  simp [is_eof] at h

/-!
The claims.
-/

/-- C1: for every token sequence, parsing an `&`-introduced construct
whose argument list is followed by any token other than an open brace,
or by end of input, returns a `ComponentCall` node and leaves the
component registry unchanged (in either definition mode): the input is a
name word, an open paren, a well-formed argument run, a close paren, and
a continuation that does not start with an open brace; the result is the
`ComponentCall` with the collected values, the continuation is left in
the stream, and the registry is returned untouched. -/
theorem C1_component_call_leaves_registry_unchanged
    (subParse : SubParse) (fuel : Nat) (allow : Bool) (i j p q : Nat)
    (w : String) (args rest : List Lexeme) (comps : Registry)
    (hargs : isArgItems args = true) (hrest : isOpenBraceHead rest = false) :
    parse_componentG subParse (fuel + 1) allow i
      (.Word j w :: .Symbol p .OpenParam :: (args ++ .Symbol q .CloseParam :: rest))
      comps
      = .ok (.ok (.CompCall ⟨w, arg_words args⟩), rest, comps) := by
  simp only [parse_componentG, get_namespaced_identifer, get_ns_loop,
    component_loopG]
  rw [component_args_call_path args (Component.new w) q rest hargs hrest]
  simp [Component.new]

/-- Witness for C1: `&name(@a)` followed by a word parses to the
component call `name("a")` with the registry left empty. -/
theorem C1_witness :
    isArgItems [Lexeme.Symbol 6 .At, Lexeme.Word 7 "a"] = true
    ∧ isOpenBraceHead [Lexeme.Word 9 "x"] = false
    ∧ parse_componentG (fun _ => Res.fuelOut) 1 true 0
        [.Word 1 "name", .Symbol 5 .OpenParam, .Symbol 6 .At, .Word 7 "a",
         .Symbol 8 .CloseParam, .Word 9 "x"] []
        = .ok (.ok (.CompCall ⟨"name", ["a"]⟩), [.Word 9 "x"], []) :=
  ⟨rfl, rfl,
    C1_component_call_leaves_registry_unchanged (fun _ => Res.fuelOut) 0 true 0
      1 5 8 "name" [.Symbol 6 .At, .Word 7 "a"] [.Word 9 "x"] [] rfl rfl⟩

/-- Counterexample to C2: the token sequence for `/div(){Hello` parses
*successfully* — the body's opening brace is consumed before the
children extractor starts, the scan begins at depth 0, and exhaustion at
depth 0 is not an error — so the output is one `Element` node with child
`Text("Hello")` and contains no `unclosed-open-braces` error at all. -/
theorem C2_counterexample :
    parseAllF 10
      [.Symbol 0 .ForwardSlash, .Word 1 "div", .Symbol 4 .OpenParam,
       .Symbol 5 .CloseParam, .Symbol 6 .OpenBrace, .Word 7 "Hello"] []
      = .ok ([.ok (.Html (.mk "div" [] [] [] [.ok (.Text "Hello")]))], [])
    ∧ ∀ i : Nat,
        (Except.error (AstError.UnclosedOpenBraces i) : AstResult)
          ∉ [(Except.ok (Token.Html (.mk "div" [] [] [] [.ok (.Text "Hello")]))
              : AstResult)] :=
  ⟨rfl, by intro i hmem; simp at hmem⟩

/-- C2 (amended): parsing the token sequence for `/div(){Hello` yields
one successful `Element` node with tag `div`, no attributes, and
children `[Text("Hello")]` — the unterminated body is silently accepted
because the extractor's depth is 0 when the input runs out. -/
theorem C2_unterminated_body_parses (fuel : Nat) :
    parseAllF (fuel + 10)
      [.Symbol 0 .ForwardSlash, .Word 1 "div", .Symbol 4 .OpenParam,
       .Symbol 5 .CloseParam, .Symbol 6 .OpenBrace, .Word 7 "Hello"] []
      = .ok ([.ok (.Html (.mk "div" [] [] [] [.ok (.Text "Hello")]))], []) :=
  rfl

/-- Counterexample to C3: on the run `{`(1) `{`(2) `}`(3) the extractor
reports `unclosed-open-braces` anchored at position 2 — the *last open
brace encountered* — while the only unmatched opener (the close brace at
3 matches the most recent opener, the one at 2) sits at position 1. -/
theorem C3_counterexample :
    get_children_toks
        [.Symbol 1 .OpenBrace, .Symbol 2 .OpenBrace, .Symbol 3 .CloseBrace]
      = .error (.UnclosedOpenBraces 2)
    ∧ spec_unmatched_opens []
        [.Symbol 1 .OpenBrace, .Symbol 2 .OpenBrace, .Symbol 3 .CloseBrace]
      = [1]
    ∧ (2 : Nat) ≠ 1 :=
  ⟨rfl, rfl, by decide⟩

/-- C3 (amended): for every token run given to the children extractor,
if the input is exhausted while the brace-nesting depth is greater than
zero, the extractor fails with `unclosed-open-braces` anchored at the
position of the last opening brace *encountered* during the scan (the
code's `open_brace_index` is overwritten by every opener, matched or
not). -/
theorem C3_unclosed_braces_anchor (input : List Lexeme)
    (h : scanEndsOpen input 0 = true) :
    get_children_toks input
      = .error (.UnclosedOpenBraces (last_open_brace_index 0 input)) :=
  get_children_loop_ends_open input 0 0 0 [] h

/-- Witness for C3 (amended): the run `{`(1) `{`(2) `}`(3) ends open and
the extractor anchors the failure at 2. -/
theorem C3_witness :
    scanEndsOpen
        [.Symbol 1 .OpenBrace, .Symbol 2 .OpenBrace, .Symbol 3 .CloseBrace] 0
      = true
    ∧ get_children_toks
        [.Symbol 1 .OpenBrace, .Symbol 2 .OpenBrace, .Symbol 3 .CloseBrace]
      = .error (.UnclosedOpenBraces 2) :=
  ⟨rfl, C3_unclosed_braces_anchor
    [.Symbol 1 .OpenBrace, .Symbol 2 .OpenBrace, .Symbol 3 .CloseBrace] rfl⟩

/-- C4: component definitions inside a nested body never reach the
enclosing registry.  (1) Dispatching an element (whose body may contain
arbitrary definitions) returns the enclosing registry unchanged — the
nested body is parsed by the sub-parse whose registry is discarded.
(2) Dispatching a component adds at most the single enclosing-level
definition itself to the registry.  (3) Concretely, `/div{&c{}}` parses
with the top-level registry left empty even though `c` is defined (and
registered only in the discarded sub-parser) inside the body. -/
theorem C4_nested_definitions_never_reach_enclosing_registry :
    (∀ (subParse : SubParse) (fuel i : Nat) (rest : List Lexeme)
        (comps : Registry) (r : AstResult) (rest' : List Lexeme)
        (comps' : Registry),
        parse_tokenG subParse fuel (.Symbol i .ForwardSlash :: rest) comps
          = .ok (r, rest', comps') → comps' = comps)
    ∧ (∀ (subParse : SubParse) (fuel : Nat) (allow : Bool) (i : Nat)
        (input : List Lexeme) (comps : Registry) (r : AstResult)
        (rest' : List Lexeme) (comps' : Registry),
        parse_componentG subParse fuel allow i input comps = .ok (r, rest', comps')
          → comps' = comps
            ∨ ∃ c : Component, comps' = Registry.insert comps c.name c)
    ∧ (∀ fuel : Nat, parseAllF (fuel + 10)
        [.Symbol 0 .ForwardSlash, .Word 1 "div", .Symbol 4 .OpenBrace,
         .Symbol 5 .Ampersand, .Word 6 "c", .Symbol 7 .OpenBrace,
         .Symbol 8 .CloseBrace, .Symbol 9 .CloseBrace] []
        = .ok ([.ok (.Html (.mk "div" [] [] [] [.ok (.Text "")]))], [])) := by
  refine ⟨?_, ?_, fun _ => rfl⟩
  · intro subParse fuel i rest comps r rest' comps' h
    simp only [parse_tokenG] at h
    split at h
    · simp only [Res.ok.injEq, Prod.mk.injEq] at h
      exact h.2.2.symm
    · exact Res.noConfusion h
    · exact Res.noConfusion h
  · intro subParse fuel allow i input comps r rest' comps' h
    simp only [parse_componentG] at h
    split at h
    · simp only [Res.ok.injEq, Prod.mk.injEq] at h
      exact Or.inl h.2.2.symm
    · exact component_loop_registry _ _ _ _ _ _ _ _ _ h

/-- Witness for C4: parsing the element `/p` leaves a nonempty enclosing
registry untouched, and defining `&c{}` extends an empty registry by
exactly the one definition. -/
theorem C4_witness :
    ([("x", Component.new "x")] : Registry) = [("x", Component.new "x")]
    ∧ ([("c", Component.new "c")] = ([] : Registry)
        ∨ ∃ c₂ : Component,
            [("c", Component.new "c")] = Registry.insert [] c₂.name c₂) :=
  ⟨C4_nested_definitions_never_reach_enclosing_registry.1
      (fun _ => Res.fuelOut) 5 0 [.Word 1 "p"] [("x", Component.new "x")]
      (.ok (.Html (Element.new "p"))) [] [("x", Component.new "x")] rfl,
   C4_nested_definitions_never_reach_enclosing_registry.2.1
      (fun _ => Res.fuelOut) 1 true 0
      [.Word 1 "c", .Symbol 2 .OpenBrace, .Symbol 3 .CloseBrace] []
      (.ok (.Text "")) [] [("c", Component.new "c")] rfl⟩

/-- Counterexample to C5: the token sequence for
`/div(.card #main){Hello @user}` does not produce one successful
`Element` node: the dot inside the attribute list is rejected with
`invalid-token-in-attributes`, and the driver then re-parses the
leftover tokens as stray text — nine results, the first an error. -/
theorem C5_counterexample :
    parseAllF 20 c5_paren_toks [] = .ok (c5_paren_output, [])
    ∧ ∀ e : Element, c5_paren_output ≠ [Except.ok (Token.Html e)] :=
  ⟨rfl, by
    intro e h
    have hl := congrArg List.length h
    simp [c5_paren_output] at hl⟩

/-- C5 (amended): the parenthesized form `/div(.card #main){...}` fails
with `invalid-token-in-attributes` at the dot — classes and ids are
element-level, not attribute-list, syntax — while the token sequence for
`/div.card#main{Hello @user}` produces exactly one successful `Element`
node with tag `div`, classes `["card"]`, attribute `id="main"`, and
children `[Text("Hello "), Variable("user")]`. -/
theorem C5_element_scenario (fuel : Nat) :
    parseAllF (fuel + 20) c5_paren_toks [] = .ok (c5_paren_output, [])
    ∧ parseAllF (fuel + 20) c5_outside_toks []
        = .ok ([.ok (.Html c5_element)], []) :=
  ⟨rfl, rfl⟩

/-- Counterexample to C6: for the token sequence of `@foo.` followed by
end of input, the error produced after the consumed dot is
`unexpected-end-of-input` anchored at a *dot* symbol carrying the first
word's index (1) — not at the introducing symbol `@` at index 0. -/
theorem C6_counterexample :
    parse_tokenG (fun _ => Res.fuelOut) 1
        [.Symbol 0 .At, .Word 1 "foo", .Symbol 4 .Dot] []
      = .ok (.error (.UnexpectedEof (.Symbol 1 .Dot)), [], [])
    ∧ Lexeme.Symbol 1 .Dot ≠ Lexeme.Symbol 0 .At :=
  ⟨rfl, by decide⟩

/-- C6 (amended): when a dot-namespaced identifier is read, end of input
*before the first word* yields `unexpected-end-of-input` anchored at the
symbol that introduced the identifier; end of input *after a consumed
dot* instead yields `unexpected-end-of-input` anchored at a synthesized
dot symbol carrying the index of the identifier's first word token. -/
theorem C6_namespaced_identifier_eof_anchor :
    (∀ (index : Nat) (unex : Lexeme → AstError) (prev : Operator),
        get_namespaced_identifer [] index unex prev
          = .error (.UnexpectedEof (.Symbol index prev), []))
    ∧ (∀ (widx : Nat) (w : String) (chain : List Lexeme) (d index : Nat)
        (unex : Lexeme → AstError) (prev : Operator),
        is_dot_chain chain = true →
        get_namespaced_identifer (.Word widx w :: (chain ++ [.Symbol d .Dot]))
            index unex prev
          = .error (.UnexpectedEof (.Symbol widx .Dot), [])) := by
  refine ⟨fun _ _ _ => rfl, ?_⟩
  intro widx w chain d index unex prev hchain
  simp only [get_namespaced_identifer]
  exact ns_loop_trailing_dot chain widx d w unex hchain

/-- Witness for C6 (amended): `foo.` at end of input anchors the error
at `Symbol(1, Dot)`, the first word's index. -/
theorem C6_witness :
    is_dot_chain ([] : List Lexeme) = true
    ∧ get_namespaced_identifer [.Word 1 "foo", .Symbol 4 .Dot] 0
        AstError.ExpectedVariable .At
      = .error (.UnexpectedEof (.Symbol 1 .Dot), []) :=
  ⟨rfl, C6_namespaced_identifier_eof_anchor.2 1 "foo" [] 4 0
    AstError.ExpectedVariable .At rfl⟩

/-- Counterexample to C7: inside an attribute list, the bare word key
`a` followed by a comma — a token that is not `=` — is *not* recorded
with an empty value: the loop returns the error
`invalid-token-in-attributes` for the comma. -/
theorem C7_counterexample :
    attr_loopF 1 4 (Element.new "div") [.Word 5 "a", .Symbol 6 .Comma]
      = .ok (.inr (.error (.InvalidTokenInAttributes (.Symbol 6 .Comma)),
          [.Symbol 6 .Comma]))
    ∧ ∀ (el' : Element) (r' : List Lexeme),
        attr_loopF 1 4 (Element.new "div") [.Word 5 "a", .Symbol 6 .Comma]
          ≠ .ok (.inl (el', r')) :=
  ⟨rfl, fun _ _ hx => Sum.noConfusion (Res.ok.inj hx)⟩

/-- C7 (amended): inside an element's attribute list a bare word key not
followed by `=` is recorded with the empty string as its value only when
the following token is a word, a close-paren, or a quote (the following
token is then left in the stream); any other following symbol yields
`invalid-token-in-attributes` without being consumed, and end of input
yields `unexpected-end-of-input` anchored at a word carrying the opening
parenthesis's index. -/
theorem C7_attribute_key_without_equals :
    (∀ (f opIdx i j : Nat) (el : Element) (key w : String)
        (rest : List Lexeme),
        attr_loopF (f + 1) opIdx el (.Word i key :: .Word j w :: rest)
          = attr_loopF f opIdx (el.add_attribute key "") (.Word j w :: rest))
    ∧ (∀ (f opIdx i j : Nat) (el : Element) (key : String)
        (rest : List Lexeme),
        attr_loopF (f + 1) opIdx el
            (.Word i key :: .Symbol j .CloseParam :: rest)
          = attr_loopF f opIdx (el.add_attribute key "")
              (.Symbol j .CloseParam :: rest))
    ∧ (∀ (f opIdx i j : Nat) (el : Element) (key : String)
        (rest : List Lexeme),
        attr_loopF (f + 1) opIdx el (.Word i key :: .Symbol j .Quote :: rest)
          = attr_loopF f opIdx (el.add_attribute key "")
              (.Symbol j .Quote :: rest))
    ∧ (∀ (f opIdx i j : Nat) (el : Element) (key : String) (op : Operator)
        (rest : List Lexeme),
        op ≠ .Equals → op ≠ .CloseParam → op ≠ .Quote →
        attr_loopF (f + 1) opIdx el (.Word i key :: .Symbol j op :: rest)
          = .ok (.inr (.error (.InvalidTokenInAttributes (.Symbol j op)),
              .Symbol j op :: rest)))
    ∧ (∀ (f opIdx i : Nat) (el : Element) (key : String),
        attr_loopF (f + 1) opIdx el [.Word i key]
          = .ok (.inr (.error (.UnexpectedEof (.Word opIdx key)), []))) := by
  refine ⟨fun _ _ _ _ _ _ _ _ => rfl, fun _ _ _ _ _ _ _ => rfl,
    fun _ _ _ _ _ _ _ => rfl, ?_, fun _ _ _ _ _ => rfl⟩
  intro f opIdx i j el key op rest h1 h2 h3
  cases op
  case Equals => exact absurd rfl h1
  case CloseParam => exact absurd rfl h2
  case Quote => exact absurd rfl h3
  all_goals rfl

/-- Witness for C7 (amended): the key `a` followed by a comma hits the
`invalid-token-in-attributes` branch. -/
theorem C7_witness :
    (Operator.Comma ≠ .Equals ∧ Operator.Comma ≠ .CloseParam
      ∧ Operator.Comma ≠ .Quote)
    ∧ attr_loopF 1 4 (Element.new "p") [.Word 5 "a", .Symbol 6 .Comma, .Word 7 "b"]
      = .ok (.inr (.error (.InvalidTokenInAttributes (.Symbol 6 .Comma)),
          [.Symbol 6 .Comma, .Word 7 "b"])) :=
  ⟨⟨by decide, by decide, by decide⟩,
    C7_attribute_key_without_equals.2.2.2.1 0 4 5 6 (Element.new "p") "a"
      .Comma [.Word 7 "b"] (by decide) (by decide) (by decide)⟩

/-- C8 (code bug): `parse_component` invoked with
`allow-definition=false` on `&name` followed by end of input runs off
the end of the peek loop and hits the `unreachable!()` at parser.rs:217
— a panic, contradicting the code's own comment that a `ComponentCall`
or an `ExpectedCompCall` error is always produced in that mode. -/
theorem C8_allow_definition_false_panics (subParse : SubParse) (fuel : Nat) :
    parse_componentG subParse (fuel + 1) false 0 [.Word 1 "name"] []
      = .panicked :=
  rfl

/-- C9: the full-parse output never contains the end-of-stream sentinel
`Eof` as a result — the driver breaks on `Err(Eof)` without recording it
— and, in particular, a backslash escape as the last token terminates
the driver loop without appending any error. -/
theorem C9_output_never_contains_eof_sentinel :
    (∀ (fuel : Nat) (input : List Lexeme) (comps : Registry)
        (out : List AstResult) (comps' : Registry),
        parseAllF fuel input comps = .ok (out, comps')
          → (Except.error AstError.Eof : AstResult) ∉ out)
    ∧ (∀ (fuel i : Nat) (comps : Registry),
        parseAllF (fuel + 2) [.Symbol i .BackSlash] comps = .ok ([], comps)) := by
  refine ⟨?_, fun _ _ _ => rfl⟩
  intro fuel
  induction fuel with
  | zero =>
      intro input comps out comps' h
      exact Res.noConfusion h
  | succ f ih =>
      intro input comps out comps' h
      simp only [parseAllF] at h
      split at h
      · next x r rest comps₀ heq =>
          split at h
          · simp only [Res.ok.injEq, Prod.mk.injEq] at h
            rw [← h.1]
            simp
          · next hEof =>
              have hEof' : is_eof r = false := by simpa using hEof
              split at h
              · next y out₀ c₂ hrec =>
                  simp only [Res.ok.injEq, Prod.mk.injEq] at h
                  rw [← h.1]
                  simp only [List.mem_cons, not_or]
                  exact ⟨fun hc => is_eof_eq_false r hEof' hc.symm,
                    ih _ _ _ _ hrec⟩
              · exact Res.noConfusion h
              · exact Res.noConfusion h
      · exact Res.noConfusion h
      · exact Res.noConfusion h

/-- Witness for C9: the parse of a lone backslash succeeds with empty
output, which therefore does not contain the sentinel. -/
theorem C9_witness :
    (Except.error AstError.Eof : AstResult) ∉ ([] : List AstResult) :=
  C9_output_never_contains_eof_sentinel.1 2 [.Symbol 0 .BackSlash] [] [] [] rfl

/-- C10: the escape parser does not consume a following word token — for
every stream position where a backslash is followed by a word, the
escape yields an empty `Text` node and leaves the word in the stream —
and `\foo` at top level therefore produces `Text("")` followed by
`Text("foo")`. -/
theorem C10_escape_does_not_consume_word :
    (∀ (i : Nat) (w : String) (rest : List Lexeme),
        parse_escaped (.Word i w :: rest) = (.ok (.Text ""), .Word i w :: rest))
    ∧ (∀ (fuel : Nat) (comps : Registry),
        parseAllF (fuel + 5) [.Symbol 0 .BackSlash, .Word 1 "foo"] comps
          = .ok ([.ok (.Text ""), .ok (.Text "foo")], comps)) :=
  ⟨fun _ _ _ => rfl, fun _ _ => rfl⟩

end Poly
